import Mathlib

/-!
# Verification of the 2xiang job orchestration core

A shallow embedding, in Lean 4, of the image-generation job orchestration
code of the `basel-ax/2xiang` repository: the prompt normalizer
(`truncatePrompt` in `cmd/example/main.go`), the submission stage (the
per-job body of `generateImagesWorkflow`), the polling stage (the per-job
poll cycle of `processGeneratedImagesWorkflow`), the ad-hoc single-job
wait (`WaitForGeneration` in the service layer), and the outer control
loop structure shared by the workflows as scheduled in cron mode.

Go strings are modelled as lists of UTF-8 bytes (`List Nat`) where the
byte-level structure matters (prompt truncation), and as lists of
characters (`List Char`) where the code only searches for substrings
(error-message pattern matching). Store writes are modelled as explicit
event traces so that the order of field updates is visible.
-/

namespace Xiang

/-! ## Text primitives: substring search and the uuid extraction pattern

`generateImagesWorkflow` uses `strings.Contains` and the regular
expression `"uuid":"([^\"]+)"`; `processGeneratedImagesWorkflow` uses
`strings.Contains` with the pattern `"status":404`. -/

/-- Model of Go's `strings.HasPrefix s pat`: the pattern
occurs at the very start of `s`. -/
def leadsWith : List Char → List Char → Bool
  | [], _ => true
  | _ :: _, [] => false
  | p :: ps, c :: cs => p = c && leadsWith ps cs

/-- Model of Go's `strings.Contains s pat`. -/
def containsSub : List Char → List Char → Bool
  | [], pat => pat.isEmpty
  | c :: cs, pat => leadsWith pat (c :: cs) || containsSub cs pat

/-- The literal part of the uuid regular expression: `"uuid":"`. -/
def uuidPat : List Char := ("\"uuid\":\"" : String).data

/-- Try to match the regular expression `"uuid":"([^\"]+)"` at the start
of `msg`; on success return the capture group. The quantified class is
greedy and cannot backtrack into a successful match, so a match at this
position exists exactly when the literal is present, followed by at least
one non-quote character, followed by a quote. -/
def uuidAt (msg : List Char) : Option (List Char) :=
  if leadsWith uuidPat msg then
    let rest := msg.drop uuidPat.length
    let u := rest.takeWhile (fun c => !(c = '"'))
    if u.length = 0 then none
    else if rest.drop u.length = [] then none
    else some u
  else none

/-- Model of `regexp.MustCompile("\"uuid\":\"([^\"]+)\"").FindStringSubmatch err`:
the capture group of the leftmost match of the uuid pattern, if any. -/
def extractUuid : List Char → Option (List Char)
  | [] => none
  | c :: cs =>
    match uuidAt (c :: cs) with
    | some u => some u
    | none => extractUuid cs

/-- The degenerate-success marker `status code: 201` searched for in
submission error text. -/
def code201Pat : List Char := ("status code: 201" : String).data

/-- The degenerate-success marker `INITIAL` searched for in submission
error text. -/
def initialPat : List Char := ("INITIAL" : String).data

/-- The not-found marker `"status":404` searched for in poll error
text. -/
def notFoundPat : List Char := ("\"status\":404" : String).data

/-! ## UTF-8 byte-level model for the prompt normalizer

`truncatePrompt` in `cmd/example/main.go` walks the string byte by byte
with `utf8.DecodeRuneInString`, so the embedding works on the UTF-8 byte
sequence of the prompt. -/

/-- Whether a byte is a UTF-8 continuation byte (`0x80..0xBF`). -/
def isCont (b : Nat) : Bool := decide (0x80 ≤ b) && decide (b < 0xC0)

/-- Go's accept range for the first continuation byte, which depends on
the leading byte (`utf8.acceptRanges`). -/
def acceptFirst (b0 b1 : Nat) : Bool :=
  if b0 = 0xE0 then decide (0xA0 ≤ b1) && decide (b1 ≤ 0xBF)
  else if b0 = 0xED then decide (0x80 ≤ b1) && decide (b1 ≤ 0x9F)
  else if b0 = 0xF0 then decide (0x90 ≤ b1) && decide (b1 ≤ 0xBF)
  else if b0 = 0xF4 then decide (0x80 ≤ b1) && decide (b1 ≤ 0x8F)
  else isCont b1

/-- The size component of Go's `utf8.DecodeRuneInString`: `0` on the
empty string, the encoding length of the first rune on a well-formed
head, and `1` on a malformed head. -/
def decodeRuneSize : List Nat → Nat
  | [] => 0
  | b0 :: rest =>
    if b0 < 0x80 then 1
    else if b0 < 0xC2 then 1
    else if b0 < 0xE0 then
      match rest with
      | b1 :: _ => if isCont b1 then 2 else 1
      | [] => 1
    else if b0 < 0xF0 then
      match rest with
      | b1 :: b2 :: _ => if acceptFirst b0 b1 && isCont b2 then 3 else 1
      | _ => 1
    else if b0 < 0xF5 then
      match rest with
      | b1 :: b2 :: b3 :: _ =>
        if acceptFirst b0 b1 && isCont b2 && isCont b3 then 4 else 1
      | _ => 1
    else 1

/-- Fuel-indexed rune counter; with fuel at least the byte length this is
Go's `utf8.RuneCountInString`. -/
def runeCountAux : Nat → List Nat → Nat
  | 0, _ => 0
  | _ + 1, [] => 0
  | fuel + 1, b :: rest =>
    1 + runeCountAux fuel (List.drop (decodeRuneSize (b :: rest) - 1) rest)

/-- Go's `utf8.RuneCountInString` on the byte sequence of a string. -/
def runeCount (bs : List Nat) : Nat := runeCountAux bs.length bs

/-- The byte-offset loop of `truncatePrompt`: starting at offset `n`,
advance over at most `i` more runes while bytes remain. -/
def truncLoop (bs : List Nat) : Nat → Nat → Nat
  | n, 0 => n
  | n, i + 1 =>
    if n < bs.length then truncLoop bs (n + decodeRuneSize (bs.drop n)) i
    else n

/-- Embedding of `truncatePrompt` from `cmd/example/main.go`: return the string
unchanged when its rune count is within the limit, otherwise walk
`length` runes from the front and cut at the resulting byte offset. -/
def truncatePrompt (s : List Nat) (length : Nat) : List Nat :=
  if runeCount s ≤ length then s
  else List.take (truncLoop s 0 length) s

/-- The constant `maxPromptLength` from `cmd/example/main.go`. -/
def maxPromptLength : Nat := 999

/-- The UTF-8 encoding of one Unicode scalar value `v`. -/
def encodeCp (v : Nat) : List Nat :=
  if v < 0x80 then [v]
  else if v < 0x800 then [0xC0 + v / 64, 0x80 + v % 64]
  else if v < 0x10000 then [0xE0 + v / 4096, 0x80 + v / 64 % 64, 0x80 + v % 64]
  else [0xF0 + v / 262144, 0x80 + v / 4096 % 64, 0x80 + v / 64 % 64, 0x80 + v % 64]

/-- The UTF-8 byte sequence of a character sequence; this is how a Go
string relates to the text it holds. -/
def encodeChars (cs : List Char) : List Nat :=
  (cs.map (fun c => encodeCp c.toNat)).flatten

/-- A Unicode scalar value: below the surrogate block or between the
surrogate block and `0x110000`. This is exactly `Nat.isValidChar`. -/
def ValidCp (v : Nat) : Prop := v < 0xD800 ∨ (0xDFFF < v ∧ v < 0x110000)

/-! ## Data model

The `images` table row, as read and written by the two workflows
(`internal/domain/image.go`, repository update statements). -/

/-- One row of the `images` table. -/
structure Image where
  id : Nat
  prompt : String
  uuid : String
  status : String
  base64 : String
deriving DecidableEq

/-- One observable step of a workflow against its collaborators: a store
field update (`UpdateUUID` / `UpdateStatus` / `UpdateBase64`), a poll of
the generation service (`CheckGenerationStatus`), or the fixed
inter-attempt sleep. -/
inductive Event where
  | setUuid (id : Nat) (u : String)
  | setStatus (id : Nat) (s : String)
  | setBase64 (id : Nat) (b : String)
  | poll (uuid : String)
  | sleep
deriving DecidableEq

/-- Effect of one event on the tracked row. Poll and sleep events do not
touch the store; each update statement writes exactly one field. -/
def applyEvent (img : Image) : Event → Image
  | .setUuid _ u => { img with uuid := u }
  | .setStatus _ s => { img with status := s }
  | .setBase64 _ b => { img with base64 := b }
  | .poll _ => img
  | .sleep => img

/-- Effect of an event trace on the tracked row, first event first. -/
def applyEvents (img : Image) (evs : List Event) : Image :=
  evs.foldl applyEvent img

/-! ## Submission stage

The per-job body of `generateImagesWorkflow` in `cmd/example/main.go`
(lines 193–265): truncate the prompt, call `service.GenerateImage`, and
either record the correlation id and move the job to `Generate`, or mark
it `Failed`. The degenerate-success error (body contains
`status code: 201` and `INITIAL` with an embedded uuid) is treated like
success. -/

/-- Outcome of `service.GenerateImage` as seen by the workflow: a
response carrying a uuid, or an error with its message text. -/
inductive SubmitResult where
  | ok (uuid : String)
  | errText (msg : List Char)
deriving DecidableEq

/-- The store writes performed for one claimed job by
`generateImagesWorkflow`, in order. -/
def generateImageOps (img : Image) (res : SubmitResult) : List Event :=
  match res with
  | .ok u => [.setUuid img.id u, .setStatus img.id "Generate"]
  | .errText msg =>
    if containsSub msg code201Pat && containsSub msg initialPat then
      match extractUuid msg with
      | some u => [.setUuid img.id (String.mk u), .setStatus img.id "Generate"]
      | none => [.setStatus img.id "Failed"]
    else [.setStatus img.id "Failed"]

/-- The row after the submission stage processes one claimed job. -/
def submitRun (img : Image) (res : SubmitResult) : Image :=
  applyEvents img (generateImageOps img res)

/-! ## Polling stage

The per-job poll cycle of `processGeneratedImagesWorkflow` in
`cmd/example/main.go` (lines 291–351): up to three status checks; a poll
error containing `"status":404` resets the job to `ReadyToGenerate` and
exits the loop; `DONE` with files saves the first file and marks
`ReadyToPublish`; `FAILED` marks `Failed` (the `break` in these two
switch cases leaves only the switch, so the loop continues); any other
status sleeps two seconds when attempts remain. -/

/-- Outcome of `service.CheckGenerationStatus` as seen by the workflow. -/
inductive PollResult where
  | ok (status : String) (files : List String)
  | err (msg : List Char)
deriving DecidableEq

/-- Events of one status check (`checkCount = k`), paired with whether
the check loop is exited (`break` out of the `for`), which happens only
on the not-found reset path. -/
def pollAttempt (img : Image) (res : PollResult) (k : Nat) : List Event × Bool :=
  match res with
  | .err msg =>
    if containsSub msg notFoundPat then
      ([.poll img.uuid, .setUuid img.id "", .setStatus img.id "ReadyToGenerate"], true)
    else ([.poll img.uuid], false)
  | .ok st files =>
    if st = "DONE" then
      match files with
      | [] => ([.poll img.uuid], false)
      | f0 :: _ =>
        ([.poll img.uuid, .setBase64 img.id f0, .setStatus img.id "ReadyToPublish"], false)
    else if st = "FAILED" then
      ([.poll img.uuid, .setStatus img.id "Failed"], false)
    else
      ([.poll img.uuid] ++ (if k < 3 then [.sleep] else []), false)

/-- The check loop from attempt `k` with `r` attempts remaining. `f k`
is the outcome of the `k`-th status check. -/
def pollCycleFrom (img : Image) (f : Nat → PollResult) : Nat → Nat → List Event
  | _, 0 => []
  | k, r + 1 =>
    let p := pollAttempt img (f k) k
    if p.2 then p.1 else p.1 ++ pollCycleFrom img f (k + 1) r

/-- One full cycle of the polling stage over one claimed job: three
status checks starting at `checkCount = 1`. -/
def pollCycle (img : Image) (f : Nat → PollResult) : List Event :=
  pollCycleFrom img f 1 3

/-- The row after the polling stage runs one cycle over one claimed
job. -/
def pollRun (img : Image) (f : Nat → PollResult) : Image :=
  applyEvents img (pollCycle img f)

/-- Whether an event is a poll of the generation service. -/
def isPollEv : Event → Bool
  | .poll _ => true
  | _ => false

/-- Number of poll attempts in a trace. -/
def countPolls (evs : List Event) : Nat := (evs.filter isPollEv).length

/-- Whether a poll outcome is the not-found signature that resets the
job. -/
def isNotFound : PollResult → Bool
  | .err msg => containsSub msg notFoundPat
  | .ok _ _ => false

/-! ## Ad-hoc single-job wait

`WaitForGeneration` in the service layer: poll up to `MaxAttempts`
times; `DONE` returns the response, `FAIL` is a generation failure,
`INITIAL`/`PROCESSING` wait for the check interval (or cancellation) and
retry, anything else is an unknown status, and running out of attempts
reports a max-attempts error. -/

/-- Outcome of one `CheckGenerationStatus` call inside
`WaitForGeneration`. -/
inductive CheckResult where
  | ok (status : String) (files : List String) (errorDescription : String)
  | err (msg : String)
deriving DecidableEq

/-- Result of `WaitForGeneration`. -/
inductive WaitResult where
  | done (files : List String)
  | checkError (msg : String)
  | genFailed (desc : String)
  | unknownStatus (st : String)
  | ctxCancelled
  | maxAttemptsReached
deriving DecidableEq

/-- The attempt loop of `WaitForGeneration` from attempt index `i` with
`r` attempts remaining; `cancelled j` tells whether the context is
cancelled during the wait after attempt `j`. -/
def waitFrom (f : Nat → CheckResult) (cancelled : Nat → Bool) : Nat → Nat → WaitResult
  | _, 0 => .maxAttemptsReached
  | i, r + 1 =>
    match f i with
    | .err m => .checkError m
    | .ok st files desc =>
      if st = "DONE" then .done files
      else if st = "FAIL" then .genFailed desc
      else if st = "INITIAL" ∨ st = "PROCESSING" then
        if cancelled i then .ctxCancelled else waitFrom f cancelled (i + 1) r
      else .unknownStatus st

/-- Embedding of `WaitForGeneration` with `maxAttempts` attempts. -/
def waitForGeneration (maxAttempts : Nat) (f : Nat → CheckResult)
    (cancelled : Nat → Bool) : WaitResult :=
  waitFrom f cancelled 0 maxAttempts

/-- An attempt outcome on which `WaitForGeneration` waits and retries:
status `INITIAL` or `PROCESSING`, with no cancellation during the
wait. -/
def retryStep (f : Nat → CheckResult) (cancelled : Nat → Bool) (i : Nat) : Prop :=
  (∃ files desc, f i = .ok "INITIAL" files desc ∨ f i = .ok "PROCESSING" files desc)
    ∧ cancelled i = false

/-! ## Workflow loop shape in cron mode

`startCronWorkflows` registers, under one shared `sync.Mutex`, cron jobs
whose bodies call `generateImagesWorkflow` and
`processGeneratedImagesWorkflow`. Those functions are ticker loops that
return only when the context is cancelled, so a cron job body releases
the mutex only once cancellation is observed. The loop is modelled over
the sequence of signals it consumes. -/

/-- A signal consumed by the outer `select` of a workflow loop: a ticker
tick (one batch is processed and the loop continues) or context
cancellation (the function returns). -/
inductive Tick where
  | tick
  | cancel
deriving DecidableEq

/-- Whether a workflow loop has returned after consuming the given
signals. `generateImagesWorkflow` and `processGeneratedImagesWorkflow`
both have this outer shape: they return only on `ctx.Done()`. -/
def workflowLoopReturned : List Tick → Bool
  | [] => false
  | .cancel :: _ => true
  | .tick :: rest => workflowLoopReturned rest

/-- Whether the cron job body wrapping `generateImagesWorkflow` has
released `cronMutex` after its workflow call consumed the given signals:
the deferred unlock runs exactly when the workflow returns. -/
def cronRunReleasedMutex (sigs : List Tick) : Bool := workflowLoopReturned sigs

theorem char_validCp (c : Char) : ValidCp c.toNat := by
  have h := c.valid
  rcases h with h | h
  · exact Or.inl h
  · exact Or.inr ⟨h.1, h.2⟩

theorem encodeCp_length_pos (v : Nat) : 0 < (encodeCp v).length := by
  unfold encodeCp
  split_ifs <;> simp

theorem encodeChars_cons (c : Char) (cs : List Char) :
    encodeChars (c :: cs) = encodeCp c.toNat ++ encodeChars cs := by
  simp [encodeChars]

theorem encodeChars_append (a b : List Char) :
    encodeChars (a ++ b) = encodeChars a ++ encodeChars b := by
  simp [encodeChars]

/-- On a well-formed head, `DecodeRuneInString` consumes exactly the
encoding of the first scalar value, whatever follows. -/
theorem decodeRuneSize_encodeCp (v : Nat) (hv : ValidCp v) (tail : List Nat) :
    decodeRuneSize (encodeCp v ++ tail) = (encodeCp v).length := by
  rcases hv with hv | hv
  · by_cases h1 : v < 0x80
    · simp only [encodeCp, if_pos h1]
      simp only [List.cons_append, List.nil_append, decodeRuneSize, if_pos h1,
        List.length_cons, List.length_nil]
    · by_cases h2 : v < 0x800
      · simp only [encodeCp, if_neg h1, if_pos h2]
        have hc : isCont (0x80 + v % 64) = true := by
          simp only [isCont, Bool.and_eq_true, decide_eq_true_eq]
          omega
        simp only [List.cons_append, List.nil_append, decodeRuneSize]
        rw [if_neg (by omega), if_neg (by omega), if_pos (by omega), if_pos hc]
        simp
      · -- three-byte case, `v < 0xD800`
        have h3 : v < 0x10000 := by omega
        simp only [encodeCp, if_neg h1, if_neg h2, if_pos h3]
        have hacc : acceptFirst (0xE0 + v / 4096) (0x80 + v / 64 % 64) = true := by
          unfold acceptFirst
          split_ifs with he0 hed hf0 hf4
          · simp only [Bool.and_eq_true, decide_eq_true_eq]; omega
          · simp only [Bool.and_eq_true, decide_eq_true_eq]; omega
          · omega
          · omega
          · simp only [isCont, Bool.and_eq_true, decide_eq_true_eq]; omega
        have hc2 : isCont (0x80 + v % 64) = true := by
          simp only [isCont, Bool.and_eq_true, decide_eq_true_eq]; omega
        simp only [List.cons_append, List.nil_append, decodeRuneSize]
        rw [if_neg (by omega), if_neg (by omega), if_neg (by omega),
          if_pos (by omega), if_pos (by rw [hacc, hc2]; rfl)]
        simp
  · by_cases h3 : v < 0x10000
    · -- three-byte case, `0xDFFF < v`
      have h1 : ¬ v < 0x80 := by omega
      have h2 : ¬ v < 0x800 := by omega
      simp only [encodeCp, if_neg h1, if_neg h2, if_pos h3]
      have hacc : acceptFirst (0xE0 + v / 4096) (0x80 + v / 64 % 64) = true := by
        unfold acceptFirst
        split_ifs with he0 hed hf0 hf4
        · omega
        · omega
        · omega
        · omega
        · simp only [isCont, Bool.and_eq_true, decide_eq_true_eq]; omega
      have hc2 : isCont (0x80 + v % 64) = true := by
        simp only [isCont, Bool.and_eq_true, decide_eq_true_eq]; omega
      simp only [List.cons_append, List.nil_append, decodeRuneSize]
      rw [if_neg (by omega), if_neg (by omega), if_neg (by omega),
        if_pos (by omega), if_pos (by rw [hacc, hc2]; rfl)]
      simp
    · -- four-byte case
      have h1 : ¬ v < 0x80 := by omega
      have h2 : ¬ v < 0x800 := by omega
      simp only [encodeCp, if_neg h1, if_neg h2, if_neg h3]
      have hacc : acceptFirst (0xF0 + v / 262144) (0x80 + v / 4096 % 64) = true := by
        unfold acceptFirst
        split_ifs with he0 hed hf0 hf4
        · omega
        · omega
        · simp only [Bool.and_eq_true, decide_eq_true_eq]; omega
        · simp only [Bool.and_eq_true, decide_eq_true_eq]; omega
        · simp only [isCont, Bool.and_eq_true, decide_eq_true_eq]; omega
      have hc2 : isCont (0x80 + v / 64 % 64) = true := by
        simp only [isCont, Bool.and_eq_true, decide_eq_true_eq]; omega
      have hc3 : isCont (0x80 + v % 64) = true := by
        simp only [isCont, Bool.and_eq_true, decide_eq_true_eq]; omega
      simp only [List.cons_append, List.nil_append, decodeRuneSize]
      rw [if_neg (by omega), if_neg (by omega), if_neg (by omega),
        if_neg (by omega), if_pos (by omega),
        if_pos (by rw [hacc, hc2, hc3]; rfl)]
      simp

theorem runeCountAux_encodeChars (cs : List Char) :
    ∀ fuel, (encodeChars cs).length ≤ fuel →
      runeCountAux fuel (encodeChars cs) = cs.length := by
  induction cs with
  | nil =>
    intro fuel _
    cases fuel <;> simp [encodeChars, runeCountAux]
  | cons c cs ih =>
    intro fuel hfuel
    rw [encodeChars_cons] at hfuel ⊢
    have hpos := encodeCp_length_pos c.toNat
    obtain ⟨b, bs, hb⟩ : ∃ b bs, encodeCp c.toNat = b :: bs := by
      cases henc : encodeCp c.toNat with
      | nil => rw [henc] at hpos; simp at hpos
      | cons b bs => exact ⟨b, bs, rfl⟩
    rw [hb]
    rw [hb] at hfuel
    simp only [List.cons_append, List.length_cons, List.length_append] at hfuel
    obtain ⟨fuel', rfl⟩ : ∃ fuel', fuel = fuel' + 1 := by
      cases fuel with
      | zero => omega
      | succ n => exact ⟨n, rfl⟩
    have hfuel' : (encodeChars cs).length ≤ fuel' := by omega
    simp only [runeCountAux, List.append_eq]
    have hdec : decodeRuneSize (b :: (bs ++ encodeChars cs)) = bs.length + 1 := by
      have := decodeRuneSize_encodeCp c.toNat (char_validCp c) (encodeChars cs)
      rw [hb] at this
      simpa [List.cons_append] using this
    rw [hdec]
    have hdrop : List.drop (bs.length + 1 - 1) (bs ++ encodeChars cs)
        = encodeChars cs := by
      simp [List.drop_left]
    rw [hdrop, ih fuel' hfuel']
    simp only [List.length_cons]
    omega

theorem runeCount_encodeChars (cs : List Char) :
    runeCount (encodeChars cs) = cs.length :=
  runeCountAux_encodeChars cs (encodeChars cs).length (le_refl _)

theorem truncLoop_encodeChars (L : Nat) :
    ∀ (cs : List Char) (done : List Nat),
      truncLoop (done ++ encodeChars cs) done.length L
        = done.length + (encodeChars (cs.take L)).length := by
  induction L with
  | zero =>
    intro cs done
    simp [truncLoop, encodeChars]
  | succ L ih =>
    intro cs done
    cases cs with
    | nil =>
      simp [truncLoop, encodeChars]
    | cons c cs =>
      rw [encodeChars_cons]
      have hpos := encodeCp_length_pos c.toNat
      have hlt : done.length < (done ++ (encodeCp c.toNat ++ encodeChars cs)).length := by
        simp only [List.length_append]
        omega
      simp only [truncLoop, if_pos hlt]
      have hdrop : (done ++ (encodeCp c.toNat ++ encodeChars cs)).drop done.length
          = encodeCp c.toNat ++ encodeChars cs := List.drop_left _ _
      rw [hdrop, decodeRuneSize_encodeCp c.toNat (char_validCp c)]
      have hre : done ++ (encodeCp c.toNat ++ encodeChars cs)
          = (done ++ encodeCp c.toNat) ++ encodeChars cs := by
        simp [List.append_assoc]
      have hlen : done.length + (encodeCp c.toNat).length
          = (done ++ encodeCp c.toNat).length := by
        simp [List.length_append]
      rw [hre, hlen, ih cs (done ++ encodeCp c.toNat)]
      simp only [List.take_succ_cons, encodeChars_cons, List.length_append]
      omega

/-- The master description of `truncatePrompt` on well-formed text: it
keeps exactly the first `L` characters of the decoded text. -/
theorem truncatePrompt_encodeChars (cs : List Char) (L : Nat) :
    truncatePrompt (encodeChars cs) L = encodeChars (cs.take L) := by
  unfold truncatePrompt
  rw [runeCount_encodeChars]
  by_cases h : cs.length ≤ L
  · rw [if_pos h, List.take_of_length_le h]
  · rw [if_neg h]
    have h0 : truncLoop (encodeChars cs) 0 L
        = (encodeChars (cs.take L)).length := by
      have := truncLoop_encodeChars L cs []
      simpa using this
    have hsplit : encodeChars cs
        = encodeChars (cs.take L) ++ encodeChars (cs.drop L) := by
      rw [← encodeChars_append]; simp
    rw [h0, hsplit]
    exact List.take_left _ _

/-! ## General facts about event traces -/

theorem applyEvents_append (s : Image) (a b : List Event) :
    applyEvents s (a ++ b) = applyEvents (applyEvents s a) b := by
  simp [applyEvents, List.foldl_append]

theorem countPolls_append (a b : List Event) :
    countPolls (a ++ b) = countPolls a + countPolls b := by
  simp [countPolls, List.filter_append]

/-- The capture group of the uuid pattern is produced by `[^\"]+` and is
therefore never empty. -/
theorem uuidAt_ne_nil (msg u : List Char) (h : uuidAt msg = some u) : u ≠ [] := by
  simp only [uuidAt] at h
  split_ifs at h with h1 h2 h3
  intro hnil
  rw [Option.some_inj] at h
  rw [h, hnil] at h2
  simp at h2

theorem extractUuid_ne_nil (msg u : List Char) (h : extractUuid msg = some u) :
    u ≠ [] := by
  induction msg with
  | nil => simp [extractUuid] at h
  | cons c cs ih =>
    rw [extractUuid] at h
    cases hat : uuidAt (c :: cs) with
    | some w =>
      rw [hat] at h
      injection h with h4
      rw [← h4]
      exact uuidAt_ne_nil _ _ hat
    | none =>
      rw [hat] at h
      exact ih h

theorem String_mk_ne_empty (u : List Char) (h : u ≠ []) : String.mk u ≠ "" := by
  intro hcon
  apply h
  have : (String.mk u).data = ("" : String).data := by rw [hcon]
  simpa using this

/-! ## Claim theorems -/

/-- C6. Prompt normalization truncates every prompt to at most 999
characters counted by Unicode code point, the result is a well-formed
encoding of a character-level front segment of the input (truncation
never splits a multi-byte character), a prompt already within the limit
— including one of exactly 999 code points — is returned unchanged, and
normalization is idempotent. -/
theorem c6_truncatePrompt_normalization (cs : List Char) :
    truncatePrompt (encodeChars cs) maxPromptLength
        = encodeChars (cs.take maxPromptLength)
    ∧ runeCount (truncatePrompt (encodeChars cs) maxPromptLength) ≤ maxPromptLength
    ∧ (cs.length ≤ maxPromptLength →
        truncatePrompt (encodeChars cs) maxPromptLength = encodeChars cs)
    ∧ truncatePrompt (truncatePrompt (encodeChars cs) maxPromptLength) maxPromptLength
        = truncatePrompt (encodeChars cs) maxPromptLength := by
  refine ⟨truncatePrompt_encodeChars cs maxPromptLength, ?_, ?_, ?_⟩
  · rw [truncatePrompt_encodeChars, runeCount_encodeChars]
    simp
  · intro h
    rw [truncatePrompt_encodeChars, List.take_of_length_le h]
  · rw [truncatePrompt_encodeChars, truncatePrompt_encodeChars,
      List.take_take]
    simp

/-- Witness for C6 at a concrete two-character prompt. -/
theorem c6_truncatePrompt_normalization_witness :
    ("ab" : String).data.length ≤ maxPromptLength
      ∧ truncatePrompt (encodeChars ("ab" : String).data) maxPromptLength
          = encodeChars ("ab" : String).data :=
  ⟨by decide,
    (c6_truncatePrompt_normalization ("ab" : String).data).2.2.1 (by decide)⟩

/-- C4. A submission error carrying the degenerate-success signature
(`status code: 201` together with `INITIAL` and an extractable uuid in
the body) is treated identically to the success path: the uuid is taken
from the error payload, stored, and the status set to `Generate`. -/
theorem c4_degenerate_success (img : Image) (msg u : List Char)
    (h201 : containsSub msg code201Pat = true)
    (hini : containsSub msg initialPat = true)
    (hextract : extractUuid msg = some u) :
    generateImageOps img (.errText msg) = generateImageOps img (.ok (String.mk u))
    ∧ submitRun img (.errText msg)
        = { img with uuid := String.mk u, status := "Generate" } := by
  have hops : generateImageOps img (.errText msg)
      = [.setUuid img.id (String.mk u), .setStatus img.id "Generate"] := by
    simp [generateImageOps, h201, hini, hextract]
  refine ⟨by rw [hops]; rfl, ?_⟩
  rw [submitRun, hops]
  simp [applyEvents, applyEvent]

/-- Witness for C4 at a concrete degenerate-success error message. -/
theorem c4_degenerate_success_witness :
    containsSub ("unexpected status code: 201, body: \"uuid\":\"abc\",\"status\":\"INITIAL\"" : String).data code201Pat = true
    ∧ submitRun ⟨1, "sunset", "", "ReadyToGenerate", ""⟩
        (.errText ("unexpected status code: 201, body: \"uuid\":\"abc\",\"status\":\"INITIAL\"" : String).data)
      = ⟨1, "sunset", "abc", "Generate", ""⟩ :=
  ⟨by decide,
    by
      have h := (c4_degenerate_success ⟨1, "sunset", "", "ReadyToGenerate", ""⟩
        ("unexpected status code: 201, body: \"uuid\":\"abc\",\"status\":\"INITIAL\"" : String).data
        ("abc" : String).data (by decide) (by decide) (by decide)).2
      simpa using h⟩

/-- C10. A submission error that carries the degenerate-success markers
but no extractable uuid marks the job `Failed` (and leaves the stored
correlation id as it was) rather than leaving it in `ReadyToGenerate`. -/
theorem c10_markers_without_uuid (img : Image) (msg : List Char)
    (h201 : containsSub msg code201Pat = true)
    (hini : containsSub msg initialPat = true)
    (hextract : extractUuid msg = none) :
    generateImageOps img (.errText msg) = [.setStatus img.id "Failed"]
    ∧ (submitRun img (.errText msg)).status = "Failed"
    ∧ (submitRun img (.errText msg)).uuid = img.uuid := by
  have hops : generateImageOps img (.errText msg) = [.setStatus img.id "Failed"] := by
    simp [generateImageOps, h201, hini, hextract]
  refine ⟨hops, ?_, ?_⟩ <;> rw [submitRun, hops] <;> simp [applyEvents, applyEvent]

/-- Witness for C10 at a message with the markers but no uuid. -/
theorem c10_markers_without_uuid_witness :
    extractUuid ("unexpected status code: 201, body: INITIAL" : String).data = none
    ∧ (submitRun ⟨1, "sunset", "", "ReadyToGenerate", ""⟩
        (.errText ("unexpected status code: 201, body: INITIAL" : String).data)).status
      = "Failed" :=
  ⟨by decide,
    (c10_markers_without_uuid ⟨1, "sunset", "", "ReadyToGenerate", ""⟩
      ("unexpected status code: 201, body: INITIAL" : String).data
      (by decide) (by decide) (by decide)).2.1⟩

/-- C2, counterexample to the claim as stated: when the generation
client reports success with an empty uuid string, the job ends in
`Generate` with an empty correlation id — neither `Generate` with a
non-empty correlation id nor `Failed`. -/
theorem c2_submission_dichotomy_cex :
    ¬(((submitRun ⟨1, "sunset", "", "ReadyToGenerate", ""⟩ (.ok "")).status = "Generate"
        ∧ (submitRun ⟨1, "sunset", "", "ReadyToGenerate", ""⟩ (.ok "")).uuid ≠ "")
      ∨ (submitRun ⟨1, "sunset", "", "ReadyToGenerate", ""⟩ (.ok "")).status = "Failed") := by
  decide

/-- C2, amended. For every job claimed in `ReadyToGenerate`, provided
the client never reports success with an empty uuid, the job ends in
exactly one of: `Generate` with a non-empty correlation id, the id
having been stored before the status was set; or `Failed`. Any
non-degenerate submission error sets status `Failed` and records
nothing further. -/
theorem c2_submission_dichotomy (img : Image) (res : SubmitResult)
    (hclaim : img.status = "ReadyToGenerate")
    (hok : ∀ u, res = .ok u → u ≠ "") :
    (((submitRun img res).status = "Generate" ∧ (submitRun img res).uuid ≠ ""
        ∧ ∃ u, generateImageOps img res
            = [.setUuid img.id u, .setStatus img.id "Generate"])
      ∨ ((submitRun img res).status = "Failed"
        ∧ generateImageOps img res = [.setStatus img.id "Failed"]))
    ∧ ¬((submitRun img res).status = "Generate"
        ∧ (submitRun img res).status = "Failed")
    ∧ (∀ msg, res = .errText msg →
        ¬(containsSub msg code201Pat = true ∧ containsSub msg initialPat = true) →
        generateImageOps img res = [.setStatus img.id "Failed"]
        ∧ submitRun img res = { img with status := "Failed" }) := by
  refine ⟨?_, ?_, ?_⟩
  · cases res with
    | ok u =>
      left
      have hu : u ≠ "" := hok u rfl
      refine ⟨?_, ?_, ⟨u, rfl⟩⟩ <;>
        simp [submitRun, generateImageOps, applyEvents, applyEvent, hu]
    | errText msg =>
      by_cases hdeg : (containsSub msg code201Pat && containsSub msg initialPat) = true
      · cases hex : extractUuid msg with
        | some u =>
          left
          have hne := String_mk_ne_empty u (extractUuid_ne_nil msg u hex)
          have hops : generateImageOps img (.errText msg)
              = [.setUuid img.id (String.mk u), .setStatus img.id "Generate"] := by
            simp [generateImageOps, hdeg, hex]
          refine ⟨?_, ?_, ⟨String.mk u, hops⟩⟩ <;>
            rw [submitRun, hops] <;> simp [applyEvents, applyEvent, hne]
        | none =>
          right
          have hops : generateImageOps img (.errText msg)
              = [.setStatus img.id "Failed"] := by
            simp [generateImageOps, hdeg, hex]
          exact ⟨by rw [submitRun, hops]; simp [applyEvents, applyEvent], hops⟩
      · right
        have hdeg' : (containsSub msg code201Pat && containsSub msg initialPat) = false :=
          Bool.not_eq_true _ ▸ eq_false_of_ne_true hdeg
        have hops : generateImageOps img (.errText msg)
            = [.setStatus img.id "Failed"] := by
          simp [generateImageOps, hdeg']
        exact ⟨by rw [submitRun, hops]; simp [applyEvents, applyEvent], hops⟩
  · rintro ⟨h1, h2⟩
    rw [h1] at h2
    exact absurd h2 (by decide)
  · rintro msg rfl hnot
    have hdeg : (containsSub msg code201Pat && containsSub msg initialPat) = false := by
      rcases h201 : containsSub msg code201Pat with _ | _ <;>
        rcases hini : containsSub msg initialPat with _ | _ <;>
          simp_all
    have hops : generateImageOps img (.errText msg)
        = [.setStatus img.id "Failed"] := by
      simp [generateImageOps, hdeg]
    exact ⟨hops, by rw [submitRun, hops]; simp [applyEvents, applyEvent]⟩

/-- Witness for C2 (amended) at a concrete successful submission. -/
theorem c2_submission_dichotomy_witness :
    (⟨1, "sunset", "", "ReadyToGenerate", ""⟩ : Image).status = "ReadyToGenerate"
    ∧ ((submitRun ⟨1, "sunset", "", "ReadyToGenerate", ""⟩ (.ok "abc")).status = "Generate"
        ∧ (submitRun ⟨1, "sunset", "", "ReadyToGenerate", ""⟩ (.ok "abc")).uuid ≠ "")
      ∨ (submitRun ⟨1, "sunset", "", "ReadyToGenerate", ""⟩ (.ok "abc")).status = "Failed" := by
  have h := (c2_submission_dichotomy ⟨1, "sunset", "", "ReadyToGenerate", ""⟩
    (.ok "abc") rfl (by intro u hu; cases hu; decide)).1
  rcases h with ⟨h1, h2, _⟩ | ⟨h1, _⟩
  · exact Or.inl ⟨rfl, h1, h2⟩
  · exact Or.inr h1

/-! ## Polling-stage lemmas -/

/-- A not-found poll outcome makes the attempt reset the job and exit
the check loop. -/
theorem pollAttempt_notFound (img : Image) (res : PollResult) (k : Nat)
    (h : isNotFound res = true) :
    pollAttempt img res k
      = ([.poll img.uuid, .setUuid img.id "", .setStatus img.id "ReadyToGenerate"], true) := by
  cases res with
  | err msg =>
    simp only [isNotFound] at h
    simp [pollAttempt, h]
  | ok st files => simp [isNotFound] at h

/-- Every attempt on a non-not-found outcome polls exactly once and
does not exit the check loop. -/
theorem pollAttempt_other (img : Image) (res : PollResult) (k : Nat)
    (h : isNotFound res = false) :
    (pollAttempt img res k).2 = false
    ∧ countPolls (pollAttempt img res k).1 = 1 := by
  cases res with
  | err msg =>
    simp only [isNotFound] at h
    simp [pollAttempt, h, countPolls, isPollEv]
  | ok st files =>
    simp only [pollAttempt]
    split_ifs <;>
      cases files <;>
        simp [countPolls, isPollEv, List.filter_append]

/-- The four-way outcome predicate of one polling cycle relative to the
claimed row `img`. -/
def pollOutcome (img s : Image) : Prop :=
  (s.status = "ReadyToPublish" ∧ s.base64 ≠ "")
    ∨ s.status = "Failed"
    ∨ (s.status = "ReadyToGenerate" ∧ s.uuid = "")
    ∨ s = img

/-- The check loop preserves `pollOutcome` from any intermediate row,
provided every `DONE` response carries a non-empty first file. -/
theorem pollCycleFrom_outcome (img : Image) (f : Nat → PollResult)
    (hfiles : ∀ k f0 rest, f k = .ok "DONE" (f0 :: rest) → f0 ≠ "") :
    ∀ (r k : Nat) (s : Image), pollOutcome img s →
      pollOutcome img (applyEvents s (pollCycleFrom img f k r)) := by
  intro r
  induction r with
  | zero => intro k s hs; simpa [pollCycleFrom, applyEvents] using hs
  | succ r ih =>
    intro k s hs
    rw [pollCycleFrom]
    cases hres : f k with
    | err msg =>
      by_cases h404 : containsSub msg notFoundPat = true
      · have hatt : pollAttempt img (.err msg) k
            = ([.poll img.uuid, .setUuid img.id "", .setStatus img.id "ReadyToGenerate"],
               true) := by
          simp [pollAttempt, h404]
        rw [hatt]
        simp only [if_pos]
        right; right; left
        simp [applyEvents, applyEvent]
      · have h404' : containsSub msg notFoundPat = false :=
          Bool.not_eq_true _ ▸ eq_false_of_ne_true h404
        have hatt : pollAttempt img (.err msg) k = ([.poll img.uuid], false) := by
          simp [pollAttempt, h404']
        rw [hatt]
        simp only [Bool.false_eq_true, if_false]
        rw [applyEvents_append]
        exact ih (k + 1) (applyEvents s [.poll img.uuid])
          (by simpa [applyEvents, applyEvent] using hs)
    | ok st files =>
      by_cases hdone : st = "DONE"
      · cases files with
        | nil =>
          have hatt : pollAttempt img (.ok st []) k = ([.poll img.uuid], false) := by
            simp [pollAttempt, hdone]
          rw [hatt]
          simp only [Bool.false_eq_true, if_false]
          rw [applyEvents_append]
          exact ih (k + 1) _ (by simpa [applyEvents, applyEvent] using hs)
        | cons f0 rest =>
          have hatt : pollAttempt img (.ok st (f0 :: rest)) k
              = ([.poll img.uuid, .setBase64 img.id f0, .setStatus img.id "ReadyToPublish"],
                 false) := by
            simp [pollAttempt, hdone]
          rw [hatt]
          simp only [Bool.false_eq_true, if_false]
          rw [applyEvents_append]
          apply ih (k + 1)
          left
          subst hdone
          refine ⟨by simp [applyEvents, applyEvent], hfiles k f0 rest hres⟩
      · by_cases hfail : st = "FAILED"
        · have hatt : pollAttempt img (.ok st files) k
              = ([.poll img.uuid, .setStatus img.id "Failed"], false) := by
            simp [pollAttempt, hdone, hfail]
          rw [hatt]
          simp only [Bool.false_eq_true, if_false]
          rw [applyEvents_append]
          apply ih (k + 1)
          right; left
          simp [applyEvents, applyEvent]
        · have hatt : pollAttempt img (.ok st files) k
              = ([.poll img.uuid] ++ (if k < 3 then [.sleep] else []), false) := by
            cases files <;> simp [pollAttempt, hdone, hfail]
          rw [hatt]
          simp only [Bool.false_eq_true, if_false]
          rw [applyEvents_append]
          apply ih (k + 1)
          by_cases hk : k < 3 <;>
            simpa [applyEvents, applyEvent, hk] using hs

/-- C1, counterexample to the claim as stated: if every poll returns
`DONE` with the single file `""`, the job ends in `ReadyToPublish` with
an empty result, which is in none of the four allowed outcomes. -/
theorem c1_polling_outcomes_cex :
    ¬(((pollRun ⟨1, "p", "abc", "Generate", ""⟩ (fun _ => .ok "DONE" [""])).status = "ReadyToPublish"
        ∧ (pollRun ⟨1, "p", "abc", "Generate", ""⟩ (fun _ => .ok "DONE" [""])).base64 ≠ "")
      ∨ (pollRun ⟨1, "p", "abc", "Generate", ""⟩ (fun _ => .ok "DONE" [""])).status = "Failed"
      ∨ ((pollRun ⟨1, "p", "abc", "Generate", ""⟩ (fun _ => .ok "DONE" [""])).status = "ReadyToGenerate"
        ∧ (pollRun ⟨1, "p", "abc", "Generate", ""⟩ (fun _ => .ok "DONE" [""])).uuid = "")
      ∨ pollRun ⟨1, "p", "abc", "Generate", ""⟩ (fun _ => .ok "DONE" [""])
          = ⟨1, "p", "abc", "Generate", ""⟩) := by
  decide

/-- C1, amended. For every job claimed in `Generate`, provided every
`DONE` poll response carries a non-empty first result element, after the
polling stage runs one cycle the job is in exactly one of:
`ReadyToPublish` with a non-empty result, `Failed`, `ReadyToGenerate`
with an empty correlation id, or unchanged in `Generate`. -/
theorem c1_polling_outcomes (img : Image) (f : Nat → PollResult)
    (hgen : img.status = "Generate")
    (hfiles : ∀ k f0 rest, f k = .ok "DONE" (f0 :: rest) → f0 ≠ "") :
    (((pollRun img f).status = "ReadyToPublish" ∧ (pollRun img f).base64 ≠ "")
      ∨ (pollRun img f).status = "Failed"
      ∨ ((pollRun img f).status = "ReadyToGenerate" ∧ (pollRun img f).uuid = "")
      ∨ pollRun img f = img)
    ∧ ¬((pollRun img f).status = "ReadyToPublish" ∧ (pollRun img f).status = "Failed")
    ∧ ¬((pollRun img f).status = "ReadyToPublish"
        ∧ (pollRun img f).status = "ReadyToGenerate")
    ∧ ¬((pollRun img f).status = "ReadyToPublish" ∧ pollRun img f = img)
    ∧ ¬((pollRun img f).status = "Failed" ∧ (pollRun img f).status = "ReadyToGenerate")
    ∧ ¬((pollRun img f).status = "Failed" ∧ pollRun img f = img)
    ∧ ¬((pollRun img f).status = "ReadyToGenerate" ∧ pollRun img f = img) := by
  have houtcome : pollOutcome img (pollRun img f) :=
    pollCycleFrom_outcome img f hfiles 3 1 img (Or.inr (Or.inr (Or.inr rfl)))
  refine ⟨houtcome, ?_, ?_, ?_, ?_, ?_, ?_⟩
  · rintro ⟨h1, h2⟩; rw [h1] at h2; exact absurd h2 (by decide)
  · rintro ⟨h1, h2⟩; rw [h1] at h2; exact absurd h2 (by decide)
  · rintro ⟨h1, h2⟩; rw [h2, hgen] at h1; exact absurd h1 (by decide)
  · rintro ⟨h1, h2⟩; rw [h1] at h2; exact absurd h2 (by decide)
  · rintro ⟨h1, h2⟩; rw [h2, hgen] at h1; exact absurd h1 (by decide)
  · rintro ⟨h1, h2⟩; rw [h2, hgen] at h1; exact absurd h1 (by decide)

/-- Witness for C1 (amended): three inconclusive polls leave the job
unchanged in `Generate`. -/
theorem c1_polling_outcomes_witness :
    ((pollRun ⟨1, "p", "abc", "Generate", ""⟩ (fun _ => .ok "PROCESSING" [])).status = "ReadyToPublish"
        ∧ (pollRun ⟨1, "p", "abc", "Generate", ""⟩ (fun _ => .ok "PROCESSING" [])).base64 ≠ "")
      ∨ (pollRun ⟨1, "p", "abc", "Generate", ""⟩ (fun _ => .ok "PROCESSING" [])).status = "Failed"
      ∨ ((pollRun ⟨1, "p", "abc", "Generate", ""⟩ (fun _ => .ok "PROCESSING" [])).status = "ReadyToGenerate"
        ∧ (pollRun ⟨1, "p", "abc", "Generate", ""⟩ (fun _ => .ok "PROCESSING" [])).uuid = "")
      ∨ pollRun ⟨1, "p", "abc", "Generate", ""⟩ (fun _ => .ok "PROCESSING" [])
          = ⟨1, "p", "abc", "Generate", ""⟩ :=
  (c1_polling_outcomes ⟨1, "p", "abc", "Generate", ""⟩ (fun _ => .ok "PROCESSING" [])
    rfl (by intro k f0 rest h; simp at h)).1

/-- C3. The code is at odds with the claim: on `DONE` with a non-empty
result list it does persist the first element and set `ReadyToPublish`,
but the `break` leaves only the `switch`, so polling does not stop — a
job whose polls all return `DONE` with a file is polled all three times
in the cycle, against the comment "Move to next image after successful
completion". -/
theorem c3_done_keeps_polling :
    countPolls (pollCycle ⟨1, "p", "abc", "Generate", ""⟩
        (fun _ => .ok "DONE" ["base64data"])) = 3
    ∧ pollRun ⟨1, "p", "abc", "Generate", ""⟩ (fun _ => .ok "DONE" ["base64data"])
        = ⟨1, "p", "abc", "ReadyToPublish", "base64data"⟩ := by
  constructor <;> decide

/-- When the check at attempt `t` is the first not-found outcome, the
loop from attempt `k ≤ t` polls exactly `t - k + 1` times and ends with
the reset writes. -/
theorem pollCycleFrom_notFound_count (img : Image) (f : Nat → PollResult) :
    ∀ (r k t : Nat), k ≤ t → t < k + r →
      (∀ j, k ≤ j → j < t → isNotFound (f j) = false) →
      isNotFound (f t) = true →
      countPolls (pollCycleFrom img f k r) = t - k + 1
      ∧ ∃ pre, pollCycleFrom img f k r
          = pre ++ [.poll img.uuid, .setUuid img.id "", .setStatus img.id "ReadyToGenerate"] := by
  intro r
  induction r with
  | zero => intro k t hk ht _ _; omega
  | succ r ih =>
    intro k t hk ht hpre h404
    by_cases heq : t = k
    · subst heq
      have hatt := pollAttempt_notFound img (f t) t h404
      rw [pollCycleFrom, hatt]
      refine ⟨?_, ⟨[], ?_⟩⟩ <;> simp [countPolls, isPollEv]
    · have hklt : k < t := lt_of_le_of_ne hk fun h => heq h.symm
      have hfk : isNotFound (f k) = false := hpre k (le_refl k) hklt
      obtain ⟨hb, hc⟩ := pollAttempt_other img (f k) k hfk
      rw [pollCycleFrom]
      rw [hb]
      simp only [Bool.false_eq_true, if_false]
      obtain ⟨hcount, pre, hdec⟩ :=
        ih (k + 1) t hklt (by omega) (fun j hj1 hj2 => hpre j (by omega) hj2) h404
      refine ⟨?_, ⟨(pollAttempt img (f k) k).1 ++ pre, ?_⟩⟩
      · rw [countPolls_append, hc, hcount]
        omega
      · rw [hdec, List.append_assoc]

/-- C5. When a poll attempt reports the not-found signature
(`"status":404` in the error body), the polling stage clears the
correlation id, sets the status back to `ReadyToGenerate` (in that
order, as the last writes of the cycle), and stops polling the job for
the tick: the cycle performs exactly `k` polls when the not-found
outcome arrives at attempt `k`. -/
theorem c5_notFound_resets (img : Image) (f : Nat → PollResult) (k : Nat)
    (hk1 : 1 ≤ k) (hk3 : k ≤ 3)
    (hpre : ∀ j, 1 ≤ j → j < k → isNotFound (f j) = false)
    (h404 : isNotFound (f k) = true) :
    countPolls (pollCycle img f) = k
    ∧ (pollRun img f).uuid = ""
    ∧ (pollRun img f).status = "ReadyToGenerate"
    ∧ ∃ pre, pollCycle img f
        = pre ++ [.poll img.uuid, .setUuid img.id "", .setStatus img.id "ReadyToGenerate"] := by
  obtain ⟨hcount, pre, hdec⟩ :=
    pollCycleFrom_notFound_count img f 3 1 k hk1 (by omega) hpre h404
  have hcount' : countPolls (pollCycle img f) = k := by
    rw [pollCycle, hcount]; omega
  have hstate : pollRun img f
      = { applyEvents img pre with uuid := "", status := "ReadyToGenerate" } := by
    rw [pollRun, pollCycle, hdec, applyEvents_append]
    simp [applyEvents, applyEvent]
  refine ⟨hcount', ?_, ?_, ⟨pre, by rw [pollCycle]; exact hdec⟩⟩ <;>
    rw [hstate]

/-- Witness for C5: the second attempt returns not-found after an
inconclusive first attempt. -/
theorem c5_notFound_resets_witness :
    countPolls (pollCycle ⟨1, "p", "abc", "Generate", ""⟩
        (fun j => if j = 2 then .err ("some error \"status\":404 body" : String).data
                  else .ok "PROCESSING" [])) = 2
    ∧ (pollRun ⟨1, "p", "abc", "Generate", ""⟩
        (fun j => if j = 2 then .err ("some error \"status\":404 body" : String).data
                  else .ok "PROCESSING" [])).uuid = ""
    ∧ (pollRun ⟨1, "p", "abc", "Generate", ""⟩
        (fun j => if j = 2 then .err ("some error \"status\":404 body" : String).data
                  else .ok "PROCESSING" [])).status = "ReadyToGenerate" := by
  obtain ⟨h1, h2, h3, _⟩ := c5_notFound_resets ⟨1, "p", "abc", "Generate", ""⟩
    (fun j => if j = 2 then .err ("some error \"status\":404 body" : String).data
              else .ok "PROCESSING" []) 2
    (by omega) (by omega)
    (by intro j hj1 hj2
        have : j = 1 := by omega
        subst this
        decide)
    (by decide)
  exact ⟨h1, h2, h3⟩

/-- From any intermediate row, a cycle whose checks all return `DONE`
with an empty file list writes nothing. -/
theorem pollCycleFrom_done_empty (img : Image) (f : Nat → PollResult)
    (hall : ∀ j, f j = .ok "DONE" []) :
    ∀ (r k : Nat) (s : Image), applyEvents s (pollCycleFrom img f k r) = s := by
  intro r
  induction r with
  | zero => intro k s; simp [pollCycleFrom, applyEvents]
  | succ r ih =>
    intro k s
    rw [pollCycleFrom, hall k]
    have hatt : pollAttempt img (.ok "DONE" []) k = ([.poll img.uuid], false) := by
      simp [pollAttempt]
    rw [hatt]
    simp only [Bool.false_eq_true, if_false]
    rw [applyEvents_append]
    have hpoll : applyEvents s [Event.poll img.uuid] = s := rfl
    rw [hpoll, ih]

/-- C9. A check that returns `DONE` with an empty result list
contributes exactly one poll event to the cycle — no store write and no
inter-attempt sleep — and the loop proceeds directly to the next
attempt; a job whose checks all return `DONE` with an empty list is left
exactly as claimed, in `Generate` with its correlation id intact. -/
theorem c9_done_empty_no_write (img : Image) (f : Nat → PollResult)
    (k r : Nat) (s : Image) (h : f k = .ok "DONE" []) :
    pollCycleFrom img f k (r + 1) = .poll img.uuid :: pollCycleFrom img f (k + 1) r
    ∧ applyEvent s (.poll img.uuid) = s
    ∧ ((∀ j, f j = .ok "DONE" []) → pollRun img f = img) := by
  refine ⟨?_, rfl, ?_⟩
  · rw [pollCycleFrom, h]
    have hatt : pollAttempt img (.ok "DONE" []) k = ([.poll img.uuid], false) := by
      simp [pollAttempt]
    rw [hatt]
    simp
  · intro hall
    rw [pollRun, pollCycle, pollCycleFrom_done_empty img f hall]

/-- Witness for C9 at a concrete all-`DONE`-empty run. -/
theorem c9_done_empty_no_write_witness :
    pollCycleFrom ⟨1, "p", "abc", "Generate", ""⟩ (fun _ => .ok "DONE" []) 1 3
        = .poll "abc" :: pollCycleFrom ⟨1, "p", "abc", "Generate", ""⟩
            (fun _ => .ok "DONE" []) 2 2
    ∧ applyEvent ⟨1, "p", "abc", "Generate", ""⟩ (.poll "abc")
        = ⟨1, "p", "abc", "Generate", ""⟩
    ∧ ((∀ j, (fun (_ : Nat) => PollResult.ok "DONE" ([] : List String)) j = .ok "DONE" []) →
        pollRun ⟨1, "p", "abc", "Generate", ""⟩ (fun _ => .ok "DONE" [])
          = ⟨1, "p", "abc", "Generate", ""⟩) :=
  c9_done_empty_no_write ⟨1, "p", "abc", "Generate", ""⟩
    (fun _ => .ok "DONE" []) 1 2 ⟨1, "p", "abc", "Generate", ""⟩ rfl

/-! ## WaitForGeneration lemmas -/

/-- One retry-outcome attempt advances the loop by one attempt. -/
theorem waitFrom_skip (f : Nat → CheckResult) (c : Nat → Bool) (i r : Nat)
    (h : retryStep f c i) :
    waitFrom f c i (r + 1) = waitFrom f c (i + 1) r := by
  obtain ⟨⟨files, desc, hor⟩, hc⟩ := h
  rcases hor with hf | hf <;>
  · rw [waitFrom, hf]
    simp [hc]

/-- A run of `k` retry-outcome attempts advances the loop by `k`
attempts. -/
theorem waitFrom_skipAll (f : Nat → CheckResult) (c : Nat → Bool) :
    ∀ (k i r : Nat), (∀ j, i ≤ j → j < i + k → retryStep f c j) →
      waitFrom f c i (k + r) = waitFrom f c (i + k) r := by
  intro k
  induction k with
  | zero => intro i r _; simp
  | succ k ih =>
    intro i r h
    have h1 : k + 1 + r = (k + r) + 1 := by omega
    rw [h1, waitFrom_skip f c i (k + r) (h i (le_refl i) (by omega))]
    have h2 : i + 1 + k = i + (k + 1) := by omega
    rw [ih (i + 1) r (fun j hj1 hj2 => h j (by omega) (by omega)), h2]

/-- After `k ≤ n` leading retry-outcome attempts, the wait continues at
attempt `k` with `n - k` attempts remaining. -/
theorem waitForGeneration_skip (n : Nat) (f : Nat → CheckResult) (c : Nat → Bool)
    (k : Nat) (hk : k ≤ n) (h : ∀ j, j < k → retryStep f c j) :
    waitForGeneration n f c = waitFrom f c k (n - k) := by
  rw [waitForGeneration]
  have h1 : n = k + (n - k) := by omega
  conv_lhs => rw [h1]
  have := waitFrom_skipAll f c k 0 (n - k) (fun j _ hj2 => h j (by omega))
  simpa using this

/-- C8, counterexample to the claim as stated: an attempt whose status is
neither `DONE`, `FAIL`, `INITIAL` nor `PROCESSING` does not wait and
retry — it fails immediately with an unknown-status error, even though a
retry would have found `DONE` on the next attempt. -/
theorem c8_wait_contract_cex :
    waitForGeneration 2
        (fun i => if i = 0 then .ok "QUEUED" [] "" else .ok "DONE" ["d"] "")
        (fun _ => false)
      = .unknownStatus "QUEUED"
    ∧ waitForGeneration 2
        (fun i => if i = 0 then .ok "QUEUED" [] "" else .ok "DONE" ["d"] "")
        (fun _ => false)
      ≠ .done ["d"] := by
  constructor <;> decide

/-- C8, amended. `WaitForGeneration` behaves as follows at the first
attempt `k` that is not a retry outcome: `DONE` returns the result,
`FAIL` reports a generation failure, a check error is reported as such,
any other status reports an unknown-status error immediately (no wait,
no retry), and cancellation during a retry wait is reported; when every
attempt up to the caller-supplied maximum is a retry outcome, a
max-attempts-reached error is reported. Only `INITIAL` and `PROCESSING`
wait and retry. -/
theorem c8_wait_contract (n : Nat) (f : Nat → CheckResult) (c : Nat → Bool) :
    ((∀ j, j < n → retryStep f c j) → waitForGeneration n f c = .maxAttemptsReached)
    ∧ (∀ k, k < n → (∀ j, j < k → retryStep f c j) →
        (∀ files desc, f k = .ok "DONE" files desc →
            waitForGeneration n f c = .done files)
        ∧ (∀ files desc, f k = .ok "FAIL" files desc →
            waitForGeneration n f c = .genFailed desc)
        ∧ (∀ m, f k = .err m → waitForGeneration n f c = .checkError m)
        ∧ (∀ st files desc, f k = .ok st files desc →
            st ≠ "DONE" → st ≠ "FAIL" → st ≠ "INITIAL" → st ≠ "PROCESSING" →
            waitForGeneration n f c = .unknownStatus st)
        ∧ (∀ files desc,
            (f k = .ok "INITIAL" files desc ∨ f k = .ok "PROCESSING" files desc) →
            c k = true → waitForGeneration n f c = .ctxCancelled)) := by
  constructor
  · intro h
    rw [waitForGeneration_skip n f c n (le_refl n) (fun j hj => h j hj)]
    simp [waitFrom]
  · intro k hk hj
    have hbase := waitForGeneration_skip n f c k (by omega) hj
    obtain ⟨m, hm⟩ : ∃ m, n - k = m + 1 := ⟨n - k - 1, by omega⟩
    rw [hm] at hbase
    refine ⟨?_, ?_, ?_, ?_, ?_⟩
    · intro files desc hf
      rw [hbase, waitFrom, hf]
      simp
    · intro files desc hf
      rw [hbase, waitFrom, hf]
      simp
    · intro mg hf
      rw [hbase, waitFrom, hf]
    · intro st files desc hf h1 h2 h3 h4
      rw [hbase, waitFrom, hf]
      simp [h1, h2, h3, h4]
    · intro files desc hor hc
      rcases hor with hf | hf <;>
      · rw [hbase, waitFrom, hf]
        simp [hc]

/-- Witness for C8 (amended): one `INITIAL` retry, then `DONE` with a
result. -/
theorem c8_wait_contract_witness :
    waitForGeneration 2
        (fun i => if i = 0 then .ok "INITIAL" [] "" else .ok "DONE" ["d"] "")
        (fun _ => false)
      = .done ["d"] :=
  ((c8_wait_contract 2
      (fun i => if i = 0 then .ok "INITIAL" [] "" else .ok "DONE" ["d"] "")
      (fun _ => false)).2 1 (by omega)
    (by intro j hj
        have : j = 0 := by omega
        subst this
        exact ⟨⟨[], "", Or.inl (by decide)⟩, rfl⟩)).1 ["d"] "" (by decide)

/-- C7. In cron mode the scheduled job bodies call the ticker-loop
workflow functions, which return only once cancellation is observed; the
shared `cronMutex` is therefore released only after cancellation, so the
other stage's trigger, which must acquire the same mutex, can never
proceed while the process is running normally — there is no completed
run for it to wait for. -/
theorem c7_cron_run_never_completes :
    (∀ sigs : List Tick, cronRunReleasedMutex sigs = true ↔ Tick.cancel ∈ sigs)
    ∧ cronRunReleasedMutex [.tick, .tick, .tick, .tick] = false := by
  constructor
  · intro sigs
    induction sigs with
    | nil => simp [cronRunReleasedMutex, workflowLoopReturned]
    | cons t rest ih =>
      cases t with
      | tick => simpa [cronRunReleasedMutex, workflowLoopReturned] using ih
      | cancel => simp [cronRunReleasedMutex, workflowLoopReturned]
  · decide

end Xiang
